import Mathlib

/-!
Verification development for the attendee-matching engine
(supabase edge functions `search-by-request`, `search-by-offering`,
`search-by-username`, shared helpers in `_shared/gemini.ts`, and the
pgvector SQL functions `match_offerings` / `match_requests`).

The TypeScript / SQL sources are shallowly embedded:

* pure string munging and validation logic is translated directly
  (working over `List Char` so that everything reduces in the kernel);
* numeric scores are modelled as exact rationals (`Score`), except for the
  embedding client whose normalisation is modelled over `ℝ` since its
  contract is about the L2 norm;
* external services (the embedding API, the generative model, the
  network layer of supabase RPC calls) are oracle parameters: functions
  supplied to the handler models, returning `Except` to model thrown
  errors;
* the pgvector `<=>` cosine-distance operator is an external extension
  function and is therefore a parameter `cosDist` of the SQL models;
* thrown JS exceptions are modelled with `Except`, and each HTTP
  handler's try/catch produces a `HandlerOut` value (`ok` payload or
  `err status message`).
-/

/-! ### Exact score arithmetic

JS numbers (similarity scores, thresholds) are modelled as exact
rationals.  A dedicated structure is used (rather than Mathlib's `Rat`,
whose arithmetic is kernel-irreducible) so that every handler model
evaluates by `decide`/`rfl` on concrete inputs.  Values are kept as
unnormalised fractions with positive denominator; all operations the
sources need are defined below with correct rational semantics. -/

/-- An exact rational score: `num / den` with `den > 0`. -/
structure Score where
  num : Int
  den : Nat
  den_pos : 0 < den

theorem Score.ext_iff' {a b : Score} : a = b ↔ a.num = b.num ∧ a.den = b.den := by
  cases a
  cases b
  simp

instance : DecidableEq Score := fun a b =>
  decidable_of_iff (a.num = b.num ∧ a.den = b.den) Score.ext_iff'.symm

/-- Embed a natural-number literal. -/
def Score.ofNat (n : Nat) : Score := ⟨(n : Int), 1, Nat.one_pos⟩

instance (n : Nat) : OfNat Score n := ⟨Score.ofNat n⟩

/-- Exact rational subtraction on fractions. -/
def Score.sub (a b : Score) : Score :=
  ⟨a.num * (b.den : Int) - b.num * (a.den : Int), a.den * b.den,
    Nat.mul_pos a.den_pos b.den_pos⟩

instance : Sub Score := ⟨Score.sub⟩

/-- Exact rational multiplication on fractions. -/
def Score.mul (a b : Score) : Score :=
  ⟨a.num * b.num, a.den * b.den, Nat.mul_pos a.den_pos b.den_pos⟩

instance : Mul Score := ⟨Score.mul⟩

/-- Rational strict order via cross multiplication (denominators are
positive). -/
def Score.lt (a b : Score) : Prop := a.num * (b.den : Int) < b.num * (a.den : Int)

instance : LT Score := ⟨Score.lt⟩

/-- Rational order via cross multiplication (denominators are
positive). -/
def Score.le (a b : Score) : Prop := a.num * (b.den : Int) ≤ b.num * (a.den : Int)

instance : LE Score := ⟨Score.le⟩

instance (a b : Score) : Decidable (a < b) :=
  inferInstanceAs (Decidable (a.num * (b.den : Int) < b.num * (a.den : Int)))

instance (a b : Score) : Decidable (a ≤ b) :=
  inferInstanceAs (Decidable (a.num * (b.den : Int) ≤ b.num * (a.den : Int)))

/-- The literal `0.5` (the `match_threshold` passed by all call sites). -/
def Score.half : Score := ⟨1, 2, Nat.succ_pos 1⟩

/-! ### JS-level helpers -/

/-- Models the JS idiom `x || ''` applied to a nullable string field
(`null` and `''` both map to `''`). -/
def orEmpty : Option String → String
  | none => ""
  | some s => s

/-- Models JS template interpolation of a nullable string
(interpolating `null` produces the text `"null"`). -/
def jsStr : Option String → String
  | none => "null"
  | some s => s

/-- Models JS `Math.round`: round half towards positive infinity,
`floor(x + 1/2) = fdiv (2 num + den) (2 den)`. -/
def jsRound (x : Score) : Int := Int.fdiv (2 * x.num + (x.den : Int)) (2 * (x.den : Int))

/-- Models `Math.round(x * 1000) / 1000` (3-decimal rounding of
similarity scores). -/
def jsRound3 (x : Score) : Score := ⟨jsRound (x * 1000), 1000, Nat.succ_pos 999⟩

/-- Character-list version of trimming ASCII whitespace at both ends;
models JS `String.prototype.trim` / the trims in `gemini.ts`. -/
def trimChars (cs : List Char) : List Char :=
  ((cs.dropWhile fun c => c.isWhitespace).reverse.dropWhile fun c => c.isWhitespace).reverse

/-- Models JS `s.trim()`. -/
def jsTrim (s : String) : String := String.mk (trimChars s.data)

/-- The backtick character, written by code so it never appears bare in
the file. -/
def tickChar : Char := '\x60'

/-! ### The rerank response text pipeline (`rerankMatches`, gemini.ts 234-245) -/

/-- Models JS `resultText.split('\x60\x60\x60')`: split on non-overlapping
occurrences of three backticks, left to right, keeping empty pieces. -/
def splitTicksAux : List Char → List Char → List (List Char)
  | [], acc => [acc.reverse]
  | c1 :: c2 :: c3 :: t, acc =>
    if c1 = tickChar ∧ c2 = tickChar ∧ c3 = tickChar then
      acc.reverse :: splitTicksAux t []
    else
      splitTicksAux (c2 :: c3 :: t) (c1 :: acc)
  | c :: t, acc => splitTicksAux t (c :: acc)

/-- Does the string start with three backticks? Models
`resultText.startsWith('\x60\x60\x60')`. -/
def startsWithTicks (s : String) : Bool :=
  [tickChar, tickChar, tickChar].isPrefixOf s.data

/-- Models the markdown-fence cleanup in `rerankMatches`
(gemini.ts 237-243): if the (already trimmed) response text starts with
three backticks, take `split('\x60\x60\x60')[1]`, drop a leading `json`
language tag, and trim the remainder; otherwise leave the text as is. -/
def cleanMarkdownFence (s : String) : String :=
  if startsWithTicks s then
    let piece := (splitTicksAux s.data []).getD 1 []
    let piece2 := if ['j', 's', 'o', 'n'].isPrefixOf piece then piece.drop 4 else piece
    String.mk (trimChars piece2)
  else s

/-- A parsed element of the JSON array returned by the reranking model,
as the JS loop sees it: an integer number, a string (JS array indexing
coerces a canonical decimal string like `"0"` to the index `0`; a JSON
array element likewise coerces to its comma-joined string form), or any
other JSON scalar (`junk`: fractional numbers, `true`, `false`, `null`),
which the loop always drops — such a value either fails the coercive
bounds comparisons or yields `undefined` at the `matches[idx]` lookup
and fails the `!match` check. -/
inductive JsonIdx where
  | int (value : Int)
  | str (value : String)
  | junk
deriving DecidableEq

/-- Numeric value of a list of decimal digit characters. -/
def digitsVal (ds : List Char) : Nat :=
  ds.foldl (fun acc c => acc * 10 + (c.toNat - '0'.toNat)) 0

/-- Drop leading JSON whitespace. -/
def skipWs (cs : List Char) : List Char := cs.dropWhile fun c => c.isWhitespace

/-- The canonical-array-index reading of a string, as JS property lookup
uses it: `matches[s]` hits element `k` exactly when `s` is the canonical
decimal representation of `k` (digits only, no leading zero except
`"0"` itself).  Indices at or beyond `2^32 - 1` — never reached by a
50-candidate list — are not special-cased. -/
def strToIndex (s : String) : Option Nat :=
  match s.data with
  | [] => none
  | c :: rest =>
    if (c :: rest).all Char.isDigit ∧ (c = '0' → rest = []) then
      some (digitsVal (c :: rest))
    else none

/-- Parse a JSON string literal (escape sequences are outside the
modelled fragment), returning its content. -/
def parseStrLit (cs : List Char) : Option (String × List Char) :=
  match cs with
  | '"' :: rest =>
    let content := rest.takeWhile fun d => d ≠ '"'
    match rest.drop content.length with
    | '"' :: r => some (String.mk content, r)
    | _ => none
  | _ => none

/-- Parse a JSON number, returning its structured value (integers as
`JsonIdx.int`, fractional numbers as `junk`), its literal text (used
for the JS string form of nested arrays), and the rest.  Exponent
notation is outside the modelled fragment. -/
def parseNumLit (cs : List Char) : Option (JsonIdx × List Char × List Char) :=
  let neg := cs.head? = some '-'
  let cs1 := if neg then cs.drop 1 else cs
  let ds := cs1.takeWhile Char.isDigit
  if ds.isEmpty then none
  else
    match cs1.drop ds.length with
    | '.' :: r2 =>
      let fs := r2.takeWhile Char.isDigit
      if fs.isEmpty then none
      else some (JsonIdx.junk, (if neg then ['-'] else []) ++ ds ++ '.' :: fs, r2.drop fs.length)
    | rest =>
      some (JsonIdx.int (if neg then -(Int.ofNat (digitsVal ds)) else Int.ofNat (digitsVal ds)),
        (if neg then ['-'] else []) ++ ds, rest)

mutual

/-- The JS string form of one JSON value inside a nested array, as
`Array.prototype.join` renders it: strings contribute their content,
numbers their literal text, `true`/`false` their names, `null` the
empty string, and arrays their recursive comma-join. -/
def parseJoinVal : Nat → List Char → Option (List Char × List Char)
  | 0, _ => none
  | Nat.succ fuel, cs =>
    match cs with
    | '"' :: _ =>
      match parseStrLit cs with
      | none => none
      | some (s, r) => some (s.data, r)
    | '[' :: rest => parseJoinArr fuel (skipWs rest)
    | _ =>
      if ['t', 'r', 'u', 'e'].isPrefixOf cs then some (['t', 'r', 'u', 'e'], cs.drop 4)
      else if ['f', 'a', 'l', 's', 'e'].isPrefixOf cs then
        some (['f', 'a', 'l', 's', 'e'], cs.drop 5)
      else if ['n', 'u', 'l', 'l'].isPrefixOf cs then some ([], cs.drop 4)
      else
        match parseNumLit cs with
        | none => none
        | some (_, lit, r) => some (lit, r)

/-- The comma-joined string form of the remaining elements of a JSON
array (position just after `[` or after a comma, whitespace skipped). -/
def parseJoinArr : Nat → List Char → Option (List Char × List Char)
  | 0, _ => none
  | Nat.succ fuel, cs =>
    match cs with
    | ']' :: r => some ([], r)
    | _ =>
      match parseJoinVal fuel cs with
      | none => none
      | some (s1, r1) =>
        match skipWs r1 with
        | ',' :: r2 =>
          match parseJoinArr fuel (skipWs r2) with
          | none => none
          | some (s2, r3) => some (s1 ++ ',' :: s2, r3)
        | ']' :: r2 => some (s1, r2)
        | _ => none

end

/-- Parse one element of the top-level JSON array as the validation
loop consumes it: integers stay integers, strings keep their content,
nested arrays coerce to their JS comma-joined string (which is how
`matches[idx]` will key them), fractional numbers and `true` / `false`
/ `null` become `junk` (always dropped).  JSON objects are outside the
modelled fragment. -/
def parseElem (fuel : Nat) (cs : List Char) : Option (JsonIdx × List Char) :=
  match cs with
  | [] => none
  | '"' :: _ =>
    match parseStrLit cs with
    | none => none
    | some (s, r) => some (JsonIdx.str s, r)
  | '[' :: rest =>
    match parseJoinArr fuel (skipWs rest) with
    | none => none
    | some (s, r) => some (JsonIdx.str (String.mk s), r)
  | _ =>
    if ['t', 'r', 'u', 'e'].isPrefixOf cs then some (JsonIdx.junk, cs.drop 4)
    else if ['f', 'a', 'l', 's', 'e'].isPrefixOf cs then some (JsonIdx.junk, cs.drop 5)
    else if ['n', 'u', 'l', 'l'].isPrefixOf cs then some (JsonIdx.junk, cs.drop 4)
    else
      match parseNumLit cs with
      | none => none
      | some (j, _, r) => some (j, r)

/-- Comma-separated element list of the top-level JSON array.  The fuel
argument is a structural bound (the caller passes a bound generous
enough for any input of that length). -/
def parseItems : Nat → List Char → Option (List JsonIdx × List Char)
  | 0, _ => none
  | Nat.succ fuel, cs =>
    match parseElem fuel cs with
    | none => none
    | some (j, r1) =>
      match skipWs r1 with
      | ',' :: r2 =>
        match parseItems fuel (skipWs r2) with
        | none => none
        | some (js, r3) => some (j :: js, r3)
      | r2 => some ([j], r2)

/-- The two parse outcomes of the rerank reply text on which the code
does not throw: a JSON array (the intended shape), or — an accident of
JS — a top-level JSON string, since strings support `.slice` and
`for..of`, so the call proceeds over the string's characters. -/
inductive RerankReply where
  | arr (items : List JsonIdx)
  | strv (value : String)
deriving DecidableEq

/-- Models the parse step of `rerankMatches`: `JSON.parse` on the
cleaned text, restricted to the fragment the contract involves.
`none` models every outcome on which the call throws: a JSON syntax
error, or a top-level number / boolean / `null` / object, whose
`.slice` call raises a `TypeError`.  A top-level array or string
parses and the loop proceeds. -/
def parseRerankReply (s : String) : Option RerankReply :=
  match skipWs s.data with
  | '[' :: r1 =>
    match skipWs r1 with
    | ']' :: r2 => if (skipWs r2).isEmpty then some (RerankReply.arr []) else none
    | r2 =>
      match parseItems (r2.length * 2 + 2) r2 with
      | none => none
      | some (js, r3) =>
        match r3 with
        | ']' :: r4 => if (skipWs r4).isEmpty then some (RerankReply.arr js) else none
        | _ => none
  | '"' :: r1 =>
    let content := r1.takeWhile fun d => d ≠ '"'
    match r1.drop content.length with
    | '"' :: r => if (skipWs r).isEmpty then some (RerankReply.strv (String.mk content)) else none
    | _ => none
  | _ => none

instance exceptDecEq {e a : Type} [DecidableEq e] [DecidableEq a] : DecidableEq (Except e a)
  | Except.ok x, Except.ok y =>
    if h : x = y then isTrue (by rw [h]) else isFalse fun hh => h (Except.ok.inj hh)
  | Except.error x, Except.error y =>
    if h : x = y then isTrue (by rw [h]) else isFalse fun hh => h (Except.error.inj hh)
  | Except.ok _, Except.error _ => isFalse fun hh => Except.noConfusion hh
  | Except.error _, Except.ok _ => isFalse fun hh => Except.noConfusion hh

/-- The array-parse outcome of the reply: `some items` exactly when the
cleaned text parses as a JSON array. -/
def parseIdxArray (s : String) : Option (List JsonIdx) :=
  match parseRerankReply s with
  | some (RerankReply.arr items) => some items
  | _ => none

/-! ### Data rows -/

/-- A row of the `attendees` table (all text columns nullable). -/
structure AttendeeRow where
  id : Int
  first_name : Option String
  last_name : Option String
  company : Option String
  job_title : Option String
  country : Option String
  linkedin : Option String
  swapcard : Option String
  biography : Option String
deriving DecidableEq

/-- A row of the `offerings` / `requests` tables as used by the vector
search functions (id and timestamps omitted; embeddings as exact
rationals). -/
structure StoredRow where
  attendee_id : Int
  text : String
  embedding : List Score
deriving DecidableEq

/-- One record of the `RETURNS TABLE (attendee_id, text, similarity)` of
`match_offerings` / `match_requests`. -/
structure MatchRow where
  attendee_id : Int
  text : String
  similarity : Score
deriving DecidableEq

/-- A candidate handed to `rerankMatches`: a vector-search row joined
with the attendee lookup result (`attendee` is `none` when the lookup
failed — `rerankMatches` re-checks this defensively). -/
structure MatchInput where
  attendee_id : Int
  text : String
  similarity : Score
  attendee : Option AttendeeRow
deriving DecidableEq

/-- One element of the final list built by `rerankMatches`
(gemini.ts 270-280). -/
structure RerankResult where
  name : String
  company : String
  job_title : String
  country : String
  text : String
  similarity_score : Score
  linkedin : String
  swapcard : String
  biography : String
deriving DecidableEq

/-- The record pushed onto `finalResults` for a validated match
(gemini.ts 270-280). -/
def mkRerankResult (m : MatchInput) (a : AttendeeRow) : RerankResult :=
  { name := jsStr a.first_name ++ " " ++ jsStr a.last_name
    company := orEmpty a.company
    job_title := orEmpty a.job_title
    country := orEmpty a.country
    text := m.text
    similarity_score := jsRound3 m.similarity
    linkedin := orEmpty a.linkedin
    swapcard := orEmpty a.swapcard
    biography := orEmpty a.biography }

/-- One iteration of the validation loop of `rerankMatches`
(gemini.ts 250-281), with JS coercion semantics.  An integer index is
bounds-checked and looked up.  A string index passes the coercive
comparisons and reaches `matches[idx]`, which hits an element exactly
when the string is the canonical decimal form of an in-bounds index
(`strToIndex`); any other string is dropped, either at the numeric
bounds check or as an `undefined` lookup.  `junk` values (fractional
numbers, booleans, `null`) are always dropped the same two ways.
Matches without attendee data are dropped in every case. -/
def rerankStep (ms : List MatchInput) (j : JsonIdx) : Option RerankResult :=
  match j with
  | JsonIdx.junk => none
  | JsonIdx.int idx =>
    if idx < 0 ∨ (ms.length : Int) ≤ idx then none
    else
      match ms.get? idx.toNat with
      | none => none
      | some m =>
        match m.attendee with
        | none => none
        | some a => some (mkRerankResult m a)
  | JsonIdx.str s =>
    match strToIndex s with
    | none => none
    | some k =>
      if ms.length ≤ k then none
      else
        match ms.get? k with
        | none => none
        | some m =>
          match m.attendee with
          | none => none
          | some a => some (mkRerankResult m a)

/-- The full validation loop of `rerankMatches`: iterate over
`topIndices.slice(0, topK)`, dropping invalid entries. -/
def buildFinalResults (ms : List MatchInput) (topIndices : List JsonIdx) (topK : Nat) :
    List RerankResult :=
  (topIndices.take topK).filterMap (rerankStep ms)

/-- The post-response part of `rerankMatches` (gemini.ts 234-283): trim
the upstream text, strip a markdown fence, `JSON.parse` it, then run
the validation loop over `topIndices.slice(0, topK)`.  A parse outcome
on which the code throws (syntax error, or `.slice` raising on a
non-array non-string value) is `Except.error`; an array reply runs the
loop over its elements, and a top-level string reply — which JS slices
and iterates characterwise — runs it over the string's characters. -/
def rerankFromText (ms : List MatchInput) (upstream : String) (topK : Nat) :
    Except String (List RerankResult) :=
  match parseRerankReply (cleanMarkdownFence (jsTrim upstream)) with
  | none => Except.error "Rerank response is not a JSON array"
  | some (RerankReply.arr topIndices) => Except.ok (buildFinalResults ms topIndices topK)
  | some (RerankReply.strv s) =>
    Except.ok (buildFinalResults ms (s.data.map fun c => JsonIdx.str (String.mk [c])) topK)

/-! ### Vector search (`match_offerings` / `match_requests`, schema SQL) -/

/-- The `WHERE` clause of the SQL search functions:
`(exclude_attendee_id IS NULL OR attendee_id != exclude_attendee_id)
 AND 1 - (embedding <=> query_embedding) > match_threshold`.
`cosDist` is the pgvector `<=>` operator, an external extension
function, hence a parameter. -/
def keepRow (cosDist : List Score → List Score → Score) (q : List Score) (threshold : Score)
    (exclude : Option Int) (r : StoredRow) : Bool :=
  (match exclude with
   | none => true
   | some e => r.attendee_id != e)
  && decide (threshold < 1 - cosDist r.embedding q)

/-- Row comparison used by `ORDER BY embedding <=> query_embedding`
(ascending cosine distance). -/
def distLe (cosDist : List Score → List Score → Score) (q : List Score) (a b : StoredRow) : Prop :=
  cosDist a.embedding q ≤ cosDist b.embedding q

instance distLeDecidable (cosDist : List Score → List Score → Score) (q : List Score) :
    DecidableRel (distLe cosDist q) :=
  fun a b => inferInstanceAs (Decidable (cosDist a.embedding q ≤ cosDist b.embedding q))

/-- The shared body of `match_offerings` and `match_requests`:
filter by exclusion and threshold, order by ascending cosine distance,
truncate to `match_count`, and return
`(attendee_id, text, 1 - (embedding <=> query_embedding))` rows. -/
def matchQuery (cosDist : List Score → List Score → Score) (rows : List StoredRow) (q : List Score)
    (threshold : Score) (count : Nat) (exclude : Option Int) : List MatchRow :=
  ((List.insertionSort (distLe cosDist q) (rows.filter (keepRow cosDist q threshold exclude))).take
      count).map
    fun r =>
      { attendee_id := r.attendee_id, text := r.text, similarity := 1 - cosDist r.embedding q }

/-- SQL function `match_offerings` over the `offerings` table. -/
def match_offerings (cosDist : List Score → List Score → Score) (offerings : List StoredRow)
    (query_embedding : List Score) (match_threshold : Score) (match_count : Nat)
    (exclude_attendee_id : Option Int) : List MatchRow :=
  matchQuery cosDist offerings query_embedding match_threshold match_count exclude_attendee_id

/-- SQL function `match_requests` over the `requests` table. -/
def match_requests (cosDist : List Score → List Score → Score) (requests : List StoredRow)
    (query_embedding : List Score) (match_threshold : Score) (match_count : Nat)
    (exclude_attendee_id : Option Int) : List MatchRow :=
  matchQuery cosDist requests query_embedding match_threshold match_count exclude_attendee_id

/-! ### Name resolution (`search-by-username`, lines 37-114) -/

/-- ASCII-faithful model of Postgres `lower()` as used by `ilike`. -/
def lowerStr (s : String) : String := String.mk (s.data.map Char.toLower)

/-- Is `needle` a contiguous substring of the second list? -/
def containsSub (needle : List Char) : List Char → Bool
  | [] => needle.isEmpty
  | c :: t => needle.isPrefixOf (c :: t) || containsSub needle t

/-- SQL `LIKE` pattern matching over character lists: `%` matches any
sequence, `_` matches any single character, anything else matches
itself.  The fuel argument is a structural bound; `likeMatch` passes
one large enough for every input. -/
def likeMatchAux : Nat → List Char → List Char → Bool
  | 0, _, _ => false
  | Nat.succ fuel, ps, ts =>
    match ps with
    | [] => ts.isEmpty
    | '%' :: ps2 =>
      likeMatchAux fuel ps2 ts ||
        (match ts with
         | [] => false
         | _ :: ts2 => likeMatchAux fuel ('%' :: ps2) ts2)
    | '_' :: ps2 =>
      (match ts with
       | [] => false
       | _ :: ts2 => likeMatchAux fuel ps2 ts2)
    | p :: ps2 =>
      (match ts with
       | [] => false
       | t :: ts2 => p == t && likeMatchAux fuel ps2 ts2)

/-- SQL `LIKE` on character lists. -/
def likeMatch (ps ts : List Char) : Bool := likeMatchAux (ps.length + ts.length + 1) ps ts

/-- PostgREST treats `*` in an `ilike` filter value as an alias for
`%`; it reaches the database as `%`. -/
def starify (cs : List Char) : List Char := cs.map fun c => if c = '*' then '%' else c

/-- Models `.ilike(field, pat)` faithfully: case-insensitive SQL `LIKE`
where `_` and `%` in the user-supplied pattern act as wildcards (and
PostgREST's `*` as `%`); `NULL` columns never match. -/
def likePattern (pat : String) (field : Option String) : Bool :=
  match field with
  | none => false
  | some f => likeMatch (starify (lowerStr pat).data) (lowerStr f).data

/-- Models `.ilike(field, '%pat%')`: the pattern is the user text
wrapped in `%`, with the same `LIKE` wildcard semantics inside. -/
def likeWrapped (pat : String) (field : Option String) : Bool :=
  likePattern ("%" ++ pat ++ "%") field

/-- Modelled from the claim's words (exact case-insensitive equality),
used only to exhibit the divergence from the code's `ILIKE` wildcard
semantics. -/
def exactCI (pat : String) (field : Option String) : Bool :=
  match field with
  | none => false
  | some f => lowerStr f == lowerStr pat

/-- Modelled from the claim's words (case-insensitive substring
containment), used only to exhibit the divergence from the code's
`ILIKE` wildcard semantics. -/
def subCI (pat : String) (field : Option String) : Bool :=
  match field with
  | none => false
  | some f => containsSub (lowerStr pat).data (lowerStr f).data

/-- Splitter behind `name.trim().split(/\s+/)` on a trimmed string:
whitespace runs separate words. -/
def splitWsAux : List Char → List Char → List String
  | [], acc => if acc.isEmpty then [] else [String.mk acc.reverse]
  | c :: t, acc =>
    if c.isWhitespace then
      if acc.isEmpty then splitWsAux t [] else String.mk acc.reverse :: splitWsAux t []
    else splitWsAux t (c :: acc)

/-- Models `const nameParts = name.trim().split(/\s+/)` — note JS
`"".split(/\s+/)` is `[""]`. -/
def parseNameParts (name : String) : List String :=
  let t := jsTrim name
  if t = "" then [""] else splitWsAux t.data []

/-- Models `nameParts.slice(1).join(' ')`. -/
def joinSpace : List String → String
  | [] => ""
  | [s] => s
  | s :: rest => s ++ " " ++ joinSpace rest

/-- The `nameParts.length >= 2` guard for tiers (i) and (iii). -/
def manyTokens (parts : List String) : Bool := decide (2 ≤ parts.length)

/-- Tier (i) candidate rows: the first token as an `ilike` pattern
against `first_name` and the joined remaining tokens against
`last_name` (lines 50-55, before `limit(1)`). -/
def tier1Filter (parts : List String) (atts : List AttendeeRow) : List AttendeeRow :=
  atts.filter fun a =>
    likePattern (parts.headD "") a.first_name &&
      likePattern (joinSpace (parts.drop 1)) a.last_name

/-- Tier (ii) candidate rows: the whole (raw) input, `%`-wrapped, as an
`ilike` pattern against either name field (lines 65-69, before
`limit(5)`). -/
def tier2Filter (name : String) (atts : List AttendeeRow) : List AttendeeRow :=
  atts.filter fun a => likeWrapped name a.first_name || likeWrapped name a.last_name

/-- Tier (iii) candidate rows: the `%`-wrapped first token against
`first_name` or the `%`-wrapped last token against `last_name`
(lines 86-90, before `limit(5)`). -/
def tier3Filter (parts : List String) (atts : List AttendeeRow) : List AttendeeRow :=
  atts.filter fun a =>
    likeWrapped (parts.headD "") a.first_name || likeWrapped (parts.getLastD "") a.last_name

/-- State of the `attendees` variable after strategy 1
(lines 44-60): `[]` stands for JS `null` as well, since the code only
ever asks `!attendees || attendees.length === 0`. -/
def afterTier1 (name : String) (atts : List AttendeeRow) : List AttendeeRow :=
  if manyTokens (parseNameParts name) then (tier1Filter (parseNameParts name) atts).take 1 else []

/-- State of the `attendees` variable after strategy 2 (lines 62-78). -/
def afterTier2 (name : String) (atts : List AttendeeRow) : List AttendeeRow :=
  if (afterTier1 name atts).isEmpty then (tier2Filter name atts).take 5 else afterTier1 name atts

/-- State of the `attendees` variable after strategy 3 (lines 80-99). -/
def afterTier3 (name : String) (atts : List AttendeeRow) : List AttendeeRow :=
  if (afterTier2 name atts).isEmpty && manyTokens (parseNameParts name) then
    (tier3Filter (parseNameParts name) atts).take 5
  else afterTier2 name atts

/-- The resolved attendee: `attendees[0]` of the final state, `none`
modelling the 404 path (lines 106-115). -/
def resolveAttendee (name : String) (atts : List AttendeeRow) : Option AttendeeRow :=
  (afterTier3 name atts).head?

/-- The three-tier cascade stated cleanly, for the refinement theorem:
three tiers in order (with the `ILIKE` pattern semantics the code's
queries have), each running only when the previous yielded zero rows,
taking the first row of the first succeeding tier. -/
def resolveSpec (name : String) (atts : List AttendeeRow) : Option AttendeeRow :=
  let parts := parseNameParts name
  Option.orElse (if manyTokens parts then (tier1Filter parts atts).head? else none) fun _ =>
    Option.orElse ((tier2Filter name atts).head?) fun _ =>
      if manyTokens parts then (tier3Filter parts atts).head? else none

/-- Modelled from the claim's words: the same three-tier cascade but
with exact case-insensitive equality in tier (i) and plain substring
containment in tiers (ii) and (iii) — the semantics the claim ascribes
to the code, used to exhibit the wildcard divergence. -/
def resolveClaimed (name : String) (atts : List AttendeeRow) : Option AttendeeRow :=
  let parts := parseNameParts name
  Option.orElse
    (if manyTokens parts then
      (atts.filter fun a =>
        exactCI (parts.headD "") a.first_name &&
          exactCI (joinSpace (parts.drop 1)) a.last_name).head?
    else none) fun _ =>
    Option.orElse
      ((atts.filter fun a => subCI name a.first_name || subCI name a.last_name).head?) fun _ =>
      if manyTokens parts then
        (atts.filter fun a =>
          subCI (parts.headD "") a.first_name || subCI (parts.getLastD "") a.last_name).head?
      else none

/-! ### Online entry points -/

/-- The stored tables the handlers read. -/
structure SearchDB where
  attendees : List AttendeeRow
  offerings : List StoredRow
  requests : List StoredRow

/-- The external services a handler invocation consumes, as oracles:
`synth` is `generateSyntheticOffering`, `embed` is `generateEmbedding`
(the handler only needs the resulting vector), and `llm` is the raw text
of the reranking model's reply for a given query and candidate list
(`Except.error` modelling a thrown fetch/validation error inside
`rerankMatches` before the response text is read). -/
structure Oracles where
  synth : String → Except String String
  embed : String → Except String (List Score)
  llm : String → List MatchInput → Except String String

/-- The HTTP outcome of a handler: a JSON payload, or a non-2xx status
with an `{error}` body. -/
inductive HandlerOut (α : Type) where
  | ok (value : α)
  | err (status : Nat) (message : String)
deriving DecidableEq

/-- Models `from('attendees').select('*').eq('id', aid).single()`:
exactly one row or a lookup error (`none`). -/
def fetchAttendee (db : SearchDB) (aid : Int) : Option AttendeeRow :=
  match db.attendees.filter (fun a => a.id == aid) with
  | [a] => some a
  | _ => none

/-- The fan-out/join attendee resolution on raw matches followed by the
`filter((match) => match !== null)` step present in all three entry
points. -/
def attachAttendees (db : SearchDB) (raw : List MatchRow) : List MatchInput :=
  raw.filterMap fun m =>
    match fetchAttendee db m.attendee_id with
    | none => none
    | some a =>
      some { attendee_id := m.attendee_id, text := m.text, similarity := m.similarity,
             attendee := some a }

/-- Flat result shape of the two free-text entry points.  The source
field is called `matches`; that word is reserved in Lean, so the field
is `matchList` here. -/
structure FlatResult where
  query : String
  matchList : List RerankResult
deriving DecidableEq

/-- The `search-by-request` edge function (index.ts 9-141): validate the
input, transform it to a synthetic offering, embed, vector-search
offerings with threshold 0.5, count 50 and no exclusion, short-circuit
on an empty candidate set, join attendee details, rerank to top 25.
Every thrown error lands in the catch-all and becomes a 500 response. -/
def searchByRequest (cosDist : List Score → List Score → Score) (db : SearchDB) (o : Oracles)
    (input : Option String) : HandlerOut FlatResult :=
  match input with
  | none => HandlerOut.err 400 "Request parameter is required and must be a string"
  | some request =>
    if request = "" then HandlerOut.err 400 "Request parameter is required and must be a string"
    else
      match o.synth request with
      | Except.error e => HandlerOut.err 500 e
      | Except.ok syntheticOffering =>
        match o.embed syntheticOffering with
        | Except.error e => HandlerOut.err 500 e
        | Except.ok queryEmbedding =>
          if (match_offerings cosDist db.offerings queryEmbedding Score.half 50 none).isEmpty then
            HandlerOut.ok { query := request, matchList := [] }
          else
            match
              o.llm request
                (attachAttendees db
                  (match_offerings cosDist db.offerings queryEmbedding Score.half 50 none)) with
            | Except.error e => HandlerOut.err 500 e
            | Except.ok t =>
              match
                rerankFromText
                  (attachAttendees db
                    (match_offerings cosDist db.offerings queryEmbedding Score.half 50 none))
                  t 25 with
              | Except.error e => HandlerOut.err 500 e
              | Except.ok finalMatches =>
                HandlerOut.ok { query := request, matchList := finalMatches }

/-- The `search-by-offering` edge function (index.ts 9-119): like
`search-by-request` but embedding the offering text directly (no
synthetic transformation) and searching the `requests` table. -/
def searchByOffering (cosDist : List Score → List Score → Score) (db : SearchDB) (o : Oracles)
    (input : Option String) : HandlerOut FlatResult :=
  match input with
  | none => HandlerOut.err 400 "Offering parameter is required and must be a string"
  | some offering =>
    if offering = "" then HandlerOut.err 400 "Offering parameter is required and must be a string"
    else
      match o.embed offering with
      | Except.error e => HandlerOut.err 500 e
      | Except.ok queryEmbedding =>
        if (match_requests cosDist db.requests queryEmbedding Score.half 50 none).isEmpty then
          HandlerOut.ok { query := offering, matchList := [] }
        else
          match
            o.llm offering
              (attachAttendees db
                (match_requests cosDist db.requests queryEmbedding Score.half 50 none)) with
          | Except.error e => HandlerOut.err 500 e
          | Except.ok t =>
            match
              rerankFromText
                (attachAttendees db
                  (match_requests cosDist db.requests queryEmbedding Score.half 50 none))
                t 25 with
            | Except.error e => HandlerOut.err 500 e
            | Except.ok finalMatches =>
              HandlerOut.ok { query := offering, matchList := finalMatches }

/-- One group of the identity-mode result.  The source field is
`your_request` in the request loop and `your_offering` in the offering
loop; both loops have the same shape, recorded here as `your_text`.
The source `matches` field is `matchList` (reserved word). -/
structure MatchGroup where
  your_text : String
  matchList : List RerankResult
deriving DecidableEq

/-- The attendee summary of the identity-mode result
(search-by-username 145-151). -/
structure AttendeeSummary where
  name : String
  company : Option String
  job_title : Option String
  country : Option String
deriving DecidableEq

/-- The identity-mode result (search-by-username 145-154). -/
structure UserResult where
  attendee : AttendeeSummary
  people_who_can_help_you : List MatchGroup
  people_you_can_help : List MatchGroup
deriving DecidableEq

/-- The `match_offerings` RPC call of the request loop
(search-by-username 172-177): threshold 0.5, count 50, excluding the
resolved attendee's own id. -/
def usernameOfferingCandidates (cosDist : List Score → List Score → Score) (db : SearchDB)
    (selfId : Int) (qe : List Score) : List MatchRow :=
  match_offerings cosDist db.offerings qe Score.half 50 (some selfId)

/-- The `match_requests` RPC call of the offering loop
(search-by-username 243-248): threshold 0.5, count 50, excluding the
resolved attendee's own id. -/
def usernameRequestCandidates (cosDist : List Score → List Score → Score) (db : SearchDB)
    (selfId : Int) (qe : List Score) : List MatchRow :=
  match_requests cosDist db.requests qe Score.half 50 (some selfId)

/-- The request loop of `search-by-username` (lines 156-229): for each
request text, transform, embed, vector-search offerings excluding the
attendee, join attendee details, and — when at least one valid candidate
exists before reranking — rerank and append a group.  Errors thrown by
the generative services or the rerank parse abort the whole handler
(there is no per-item catch there, only the `continue` on an RPC error,
which a pure table model cannot produce). -/
def runRequestLoop (cosDist : List Score → List Score → Score) (db : SearchDB) (o : Oracles)
    (selfId : Int) : List String → Except String (List MatchGroup)
  | [] => Except.ok []
  | r :: rest =>
    match o.synth r with
    | Except.error e => Except.error e
    | Except.ok syntheticOffering =>
      match o.embed syntheticOffering with
      | Except.error e => Except.error e
      | Except.ok qe =>
        if (usernameOfferingCandidates cosDist db selfId qe).isEmpty then
          runRequestLoop cosDist db o selfId rest
        else
          if (attachAttendees db (usernameOfferingCandidates cosDist db selfId qe)).isEmpty then
            runRequestLoop cosDist db o selfId rest
          else
            match o.llm r (attachAttendees db (usernameOfferingCandidates cosDist db selfId qe)) with
            | Except.error e => Except.error e
            | Except.ok t =>
              match
                rerankFromText (attachAttendees db (usernameOfferingCandidates cosDist db selfId qe))
                  t 25 with
              | Except.error e => Except.error e
              | Except.ok finalMatches =>
                Except.map (fun gs => { your_text := r, matchList := finalMatches } :: gs)
                  (runRequestLoop cosDist db o selfId rest)

/-- The offering loop of `search-by-username` (lines 231-300): as the
request loop, but embedding the offering text directly and searching
requests. -/
def runOfferingLoop (cosDist : List Score → List Score → Score) (db : SearchDB) (o : Oracles)
    (selfId : Int) : List String → Except String (List MatchGroup)
  | [] => Except.ok []
  | offer :: rest =>
    match o.embed offer with
    | Except.error e => Except.error e
    | Except.ok qe =>
      if (usernameRequestCandidates cosDist db selfId qe).isEmpty then
        runOfferingLoop cosDist db o selfId rest
      else
        if (attachAttendees db (usernameRequestCandidates cosDist db selfId qe)).isEmpty then
          runOfferingLoop cosDist db o selfId rest
        else
          match o.llm offer (attachAttendees db (usernameRequestCandidates cosDist db selfId qe)) with
          | Except.error e => Except.error e
          | Except.ok t =>
            match
              rerankFromText (attachAttendees db (usernameRequestCandidates cosDist db selfId qe))
                t 25 with
            | Except.error e => Except.error e
            | Except.ok finalMatches =>
              Except.map (fun gs => { your_text := offer, matchList := finalMatches } :: gs)
                (runOfferingLoop cosDist db o selfId rest)

/-- The `search-by-username` edge function (index.ts 9-316): validate,
resolve the attendee by the three-tier name search, fetch the attendee's
own requests and offerings, run both loops, and assemble the result.
Loop errors land in the catch-all as a 500 response. -/
def searchByUsername (cosDist : List Score → List Score → Score) (db : SearchDB) (o : Oracles)
    (nameInput : Option String) : HandlerOut UserResult :=
  match nameInput with
  | none => HandlerOut.err 400 "Name parameter is required and must be a string"
  | some name =>
    if name = "" then HandlerOut.err 400 "Name parameter is required and must be a string"
    else
      match resolveAttendee name db.attendees with
      | none => HandlerOut.err 404 ("No attendee found matching " ++ name)
      | some a =>
        match
          runRequestLoop cosDist db o a.id
            ((db.requests.filter fun it => it.attendee_id == a.id).map fun it => it.text) with
        | Except.error e => HandlerOut.err 500 e
        | Except.ok helpYou =>
          match
            runOfferingLoop cosDist db o a.id
              ((db.offerings.filter fun it => it.attendee_id == a.id).map fun it => it.text) with
          | Except.error e => HandlerOut.err 500 e
          | Except.ok youHelp =>
            HandlerOut.ok
              { attendee :=
                  { name := jsStr a.first_name ++ " " ++ jsStr a.last_name
                    company := a.company, job_title := a.job_title, country := a.country }
                people_who_can_help_you := helpYou
                people_you_can_help := youHelp }

/-! ### Embedding client (`generateEmbedding`, gemini.ts 27-76) -/

/-- Sum of squares: models
`embedding.reduce((sum, val) => sum + val * val, 0)`.  The reals stand
in for JS floats, which is also the idealisation the spec's own norm
contract uses. -/
def sumSq (v : List ℝ) : ℝ := (v.map fun x => x * x).sum

/-- `Math.sqrt` of the sum of squares: the L2 norm computed at
gemini.ts 74. -/
noncomputable def l2norm (v : List ℝ) : ℝ := Real.sqrt (sumSq v)

/-- Models `embedding.map(val => val / norm)` (gemini.ts 75). -/
noncomputable def l2normalize (v : List ℝ) : List ℝ := v.map fun x => x / l2norm v

/-- The post-response part of `generateEmbedding` (gemini.ts 65-75):
reject empty vectors, then return the normalised vector.  Network and
upstream-shape failures are earlier throws and are outside this pure
model; `raw` is the upstream `data.embedding.values`. -/
noncomputable def generateEmbedding (raw : List ℝ) : Except String (List ℝ) :=
  if raw.isEmpty then Except.error "Empty embedding values" else Except.ok (l2normalize raw)

/-! ### Score order lemmas -/

theorem Score.le_total' (a b : Score) : a ≤ b ∨ b ≤ a := by
  rcases Int.le_total (a.num * (b.den : Int)) (b.num * (a.den : Int)) with h | h
  · exact Or.inl h
  · exact Or.inr h

theorem Score.le_trans' {a b c : Score} (h1 : a ≤ b) (h2 : b ≤ c) : a ≤ c := by
  have hb : (0 : Int) < (b.den : Int) := by exact_mod_cast b.den_pos
  have ha : (0 : Int) < (a.den : Int) := by exact_mod_cast a.den_pos
  have hc : (0 : Int) < (c.den : Int) := by exact_mod_cast c.den_pos
  have h1' : a.num * (b.den : Int) ≤ b.num * (a.den : Int) := h1
  have h2' : b.num * (c.den : Int) ≤ c.num * (b.den : Int) := h2
  show a.num * (c.den : Int) ≤ c.num * (a.den : Int)
  nlinarith [mul_le_mul_of_nonneg_right h1' (le_of_lt hc),
    mul_le_mul_of_nonneg_right h2' (le_of_lt ha)]

theorem Score.one_sub_antitone {a b : Score} (h : a ≤ b) : (1 : Score) - b ≤ (1 : Score) - a := by
  have h' : a.num * (b.den : Int) ≤ b.num * (a.den : Int) := h
  show Score.le (Score.sub 1 b) (Score.sub 1 a)
  simp only [Score.sub, Score.le, Score.ofNat, OfNat.ofNat]
  push_cast
  nlinarith [h']

/-! ### Vector search lemmas -/

theorem matchQuery_length_le (cosDist : List Score → List Score → Score) (rows : List StoredRow)
    (q : List Score) (threshold : Score) (count : Nat) (exclude : Option Int) :
    (matchQuery cosDist rows q threshold count exclude).length ≤ count := by
  unfold matchQuery
  rw [List.length_map]
  simp [List.length_take]

theorem matchQuery_pairwise (cosDist : List Score → List Score → Score) (rows : List StoredRow)
    (q : List Score) (threshold : Score) (count : Nat) (exclude : Option Int) :
    List.Pairwise (fun x y : MatchRow => y.similarity ≤ x.similarity)
      (matchQuery cosDist rows q threshold count exclude) := by
  unfold matchQuery
  letI : IsTotal StoredRow (distLe cosDist q) := ⟨fun a b => Score.le_total' _ _⟩
  letI : IsTrans StoredRow (distLe cosDist q) := ⟨fun _ _ _ h1 h2 => Score.le_trans' h1 h2⟩
  have hs : List.Sorted (distLe cosDist q)
      (List.insertionSort (distLe cosDist q)
        (rows.filter (keepRow cosDist q threshold exclude))) :=
    List.sorted_insertionSort _ _
  have ht : List.Pairwise (distLe cosDist q)
      ((List.insertionSort (distLe cosDist q)
        (rows.filter (keepRow cosDist q threshold exclude))).take count) :=
    List.Pairwise.sublist (List.take_sublist _ _) hs
  refine List.pairwise_map.mpr (ht.imp ?_)
  intro a b hab
  exact Score.one_sub_antitone hab

theorem matchQuery_mem (cosDist : List Score → List Score → Score) (rows : List StoredRow)
    (q : List Score) (threshold : Score) (count : Nat) (exclude : Option Int) (m : MatchRow)
    (hm : m ∈ matchQuery cosDist rows q threshold count exclude) :
    ∃ r ∈ rows, keepRow cosDist q threshold exclude r = true ∧
      m = { attendee_id := r.attendee_id, text := r.text,
            similarity := 1 - cosDist r.embedding q } := by
  unfold matchQuery at hm
  rcases List.mem_map.mp hm with ⟨r, hr, rfl⟩
  have hr2 : r ∈ List.insertionSort (distLe cosDist q)
      (rows.filter (keepRow cosDist q threshold exclude)) :=
    List.mem_of_mem_take hr
  have hr3 : r ∈ rows.filter (keepRow cosDist q threshold exclude) :=
    (List.mem_insertionSort _).mp hr2
  rcases List.mem_filter.mp hr3 with ⟨hrows, hkeep⟩
  exact ⟨r, hrows, hkeep, rfl⟩

theorem keepRow_threshold {cosDist : List Score → List Score → Score} {q : List Score}
    {threshold : Score} {exclude : Option Int} {r : StoredRow}
    (h : keepRow cosDist q threshold exclude r = true) :
    threshold < 1 - cosDist r.embedding q := by
  unfold keepRow at h
  rcases Bool.and_eq_true_iff.mp h with ⟨_, h2⟩
  exact of_decide_eq_true h2

theorem keepRow_excluded {cosDist : List Score → List Score → Score} {q : List Score}
    {threshold : Score} {aid : Int} {r : StoredRow}
    (h : keepRow cosDist q threshold (some aid) r = true) : r.attendee_id ≠ aid := by
  unfold keepRow at h
  rcases Bool.and_eq_true_iff.mp h with ⟨h1, _⟩
  simpa using h1

/-! ### C4: vector search result contract -/

/-- C4.  Every result list of `match_offerings` / `match_requests` is
ordered descending by similarity, where each similarity is `1` minus the
cosine distance between the stored embedding and the query embedding
(the pgvector operator being the `cosDist` parameter); every entry has
similarity strictly greater than the threshold; and the list has at most
`match_count` entries. -/
theorem vector_search_contract_c4 (cosDist : List Score → List Score → Score)
    (rows : List StoredRow) (q : List Score) (threshold : Score) (count : Nat)
    (exclude : Option Int) :
    ((match_offerings cosDist rows q threshold count exclude).length ≤ count ∧
      List.Pairwise (fun x y : MatchRow => y.similarity ≤ x.similarity)
        (match_offerings cosDist rows q threshold count exclude) ∧
      ∀ m ∈ match_offerings cosDist rows q threshold count exclude,
        threshold < m.similarity ∧
          ∃ r ∈ rows, m.attendee_id = r.attendee_id ∧ m.text = r.text ∧
            m.similarity = 1 - cosDist r.embedding q) ∧
    ((match_requests cosDist rows q threshold count exclude).length ≤ count ∧
      List.Pairwise (fun x y : MatchRow => y.similarity ≤ x.similarity)
        (match_requests cosDist rows q threshold count exclude) ∧
      ∀ m ∈ match_requests cosDist rows q threshold count exclude,
        threshold < m.similarity ∧
          ∃ r ∈ rows, m.attendee_id = r.attendee_id ∧ m.text = r.text ∧
            m.similarity = 1 - cosDist r.embedding q) := by
  have key : (matchQuery cosDist rows q threshold count exclude).length ≤ count ∧
      List.Pairwise (fun x y : MatchRow => y.similarity ≤ x.similarity)
        (matchQuery cosDist rows q threshold count exclude) ∧
      ∀ m ∈ matchQuery cosDist rows q threshold count exclude,
        threshold < m.similarity ∧
          ∃ r ∈ rows, m.attendee_id = r.attendee_id ∧ m.text = r.text ∧
            m.similarity = 1 - cosDist r.embedding q := by
    refine ⟨matchQuery_length_le _ _ _ _ _ _, matchQuery_pairwise _ _ _ _ _ _, ?_⟩
    intro m hm
    rcases matchQuery_mem cosDist rows q threshold count exclude m hm with ⟨r, hr, hkeep, rfl⟩
    exact ⟨keepRow_threshold hkeep, r, hr, rfl, rfl, rfl⟩
  exact ⟨key, key⟩

/-- Concrete witness data shared by the claim witnesses: a trivial
distance oracle and single-row tables. -/
def zeroDistW : List Score → List Score → Score := fun _ _ => 0

/-- A concrete stored row used by witnesses. -/
def rowW : StoredRow := { attendee_id := 7, text := "w", embedding := [] }

/-- Witness for C4 at a concrete input with a nonempty result list. -/
theorem vector_search_contract_c4_witness :
    Score.half <
        ({ attendee_id := 7, text := "w", similarity := 1 - zeroDistW [] [] } : MatchRow).similarity ∧
      ∃ r ∈ [rowW],
        ({ attendee_id := 7, text := "w", similarity := 1 - zeroDistW [] [] } : MatchRow).attendee_id =
            r.attendee_id ∧
          ({ attendee_id := 7, text := "w", similarity := 1 - zeroDistW [] [] } : MatchRow).text =
              r.text ∧
            ({ attendee_id := 7, text := "w",
                similarity := 1 - zeroDistW [] [] } : MatchRow).similarity =
              1 - zeroDistW r.embedding [] :=
  (vector_search_contract_c4 zeroDistW [rowW] [] Score.half 50 none).1.2.2
    { attendee_id := 7, text := "w", similarity := 1 - zeroDistW [] [] } (by decide)

/-! ### C6: self-exclusion in identity mode -/

/-- C6.  The identity-mode vector searches are invoked with the resolved
attendee's id as the exclusion parameter
(`usernameOfferingCandidates` / `usernameRequestCandidates` are the
literal RPC calls of the two loops), the SQL functions filter out every
row whose `attendee_id` equals the excluded id, and the property
survives the attendee-detail join — so the queried attendee's own id
never appears among the candidates handed to reranking. -/
theorem self_exclusion_c6 (cosDist : List Score → List Score → Score) (db : SearchDB)
    (selfId : Int) (qe : List Score) :
    (∀ m ∈ usernameOfferingCandidates cosDist db selfId qe, m.attendee_id ≠ selfId) ∧
      (∀ m ∈ usernameRequestCandidates cosDist db selfId qe, m.attendee_id ≠ selfId) ∧
      (∀ mi ∈ attachAttendees db (usernameOfferingCandidates cosDist db selfId qe),
        mi.attendee_id ≠ selfId) ∧
      ∀ mi ∈ attachAttendees db (usernameRequestCandidates cosDist db selfId qe),
        mi.attendee_id ≠ selfId := by
  have hq : ∀ rows (m : MatchRow), m ∈ matchQuery cosDist rows qe Score.half 50 (some selfId) →
      m.attendee_id ≠ selfId := by
    intro rows m hm
    rcases matchQuery_mem cosDist rows qe Score.half 50 (some selfId) m hm with ⟨r, _, hkeep, rfl⟩
    exact keepRow_excluded hkeep
  have hattach : ∀ raw (mi : MatchInput), mi ∈ attachAttendees db raw →
      ∃ m ∈ raw, mi.attendee_id = m.attendee_id := by
    intro raw mi hmi
    rcases List.mem_filterMap.mp hmi with ⟨m, hm, hstep⟩
    cases hfetch : fetchAttendee db m.attendee_id with
    | none => rw [hfetch] at hstep; simp at hstep
    | some a =>
      rw [hfetch] at hstep
      cases hstep
      exact ⟨m, hm, rfl⟩
  refine ⟨fun m hm => hq db.offerings m hm, fun m hm => hq db.requests m hm, ?_, ?_⟩
  · intro mi hmi
    rcases hattach _ mi hmi with ⟨m, hm, heq⟩
    rw [heq]
    exact hq db.offerings m hm
  · intro mi hmi
    rcases hattach _ mi hmi with ⟨m, hm, heq⟩
    rw [heq]
    exact hq db.requests m hm

/-- A concrete database used by several witnesses: attendee 1 owns the
stored request, attendee 2 owns the stored offering. -/
def aliceRowW : AttendeeRow :=
  { id := 1, first_name := some "Alice", last_name := some "Smith", company := none,
    job_title := none, country := none, linkedin := none, swapcard := none, biography := none }

/-- Second concrete attendee row. -/
def bobRowW : AttendeeRow :=
  { id := 2, first_name := some "Bob", last_name := some "Jones", company := none,
    job_title := none, country := none, linkedin := none, swapcard := none, biography := none }

/-- Concrete database for witnesses and counterexamples. -/
def dbW : SearchDB :=
  { attendees := [aliceRowW, bobRowW]
    offerings := [{ attendee_id := 2, text := "o", embedding := [] }]
    requests := [{ attendee_id := 1, text := "r", embedding := [] }] }

/-- Witness for C6 at a concrete input with a nonempty candidate list. -/
theorem self_exclusion_c6_witness :
    ({ attendee_id := 2, text := "o", similarity := 1 - zeroDistW [] [] } : MatchRow).attendee_id ≠
      (1 : Int) :=
  (self_exclusion_c6 zeroDistW dbW 1 []).1
    { attendee_id := 2, text := "o", similarity := 1 - zeroDistW [] [] } (by decide)

/-! ### C1: rerank output validation -/

/-- Concrete candidate used by rerank witnesses. -/
def mInputW : MatchInput :=
  { attendee_id := 2, text := "o", similarity := 1, attendee := some bobRowW }

/-- Concrete candidate list used by rerank witnesses. -/
def msW : List MatchInput := [mInputW]

/-- Concrete rerank output used by the C1 witness. -/
def outW : List RerankResult := buildFinalResults msW [JsonIdx.int 0] 25

/-- Counterexample to C1 as stated: the reply `["0"]` contains only a
non-integer element, yet the call keeps it — JS coercive comparisons
pass and `matches["0"]` resolves to `matches[0]` — so the output is
nonempty rather than the element being silently dropped. -/
theorem rerank_validation_c1_cex :
    parseRerankReply (cleanMarkdownFence (jsTrim "[\"0\"]")) =
        some (RerankReply.arr [JsonIdx.str "0"]) ∧
      rerankFromText msW "[\"0\"]" 25 = Except.ok [mkRerankResult mInputW bobRowW] :=
  ⟨by decide, by decide⟩

/-- C1 (amended).  Whenever the upstream rerank response parses as a
JSON array, the returned list has length at most `topK`, and every
returned element is built from `ms[k]` for some in-bounds `k` with
resolved attendee data, where `k` appears in the parsed array either as
the integer `k` or as its canonical decimal string (which JS array
indexing coerces to the index `k`); every other array element —
out-of-bounds index, non-index string, fractional number, boolean,
`null`, or unresolved attendee — is silently dropped rather than
failing the whole call (the call still returns `Except.ok`). -/
theorem rerank_validation_c1 (ms : List MatchInput) (t : String) (topK : Nat)
    (out : List RerankResult) (idxs : List JsonIdx)
    (hparse : parseRerankReply (cleanMarkdownFence (jsTrim t)) = some (RerankReply.arr idxs))
    (h : rerankFromText ms t topK = Except.ok out) :
    out.length ≤ topK ∧ out = buildFinalResults ms idxs topK ∧
      ∀ res ∈ out, ∃ k : Nat,
        (JsonIdx.int (k : Int) ∈ idxs ∨ ∃ s, JsonIdx.str s ∈ idxs ∧ strToIndex s = some k) ∧
        k < ms.length ∧ ∃ m a, ms.get? k = some m ∧ m.attendee = some a ∧
          res = mkRerankResult m a := by
  unfold rerankFromText at h
  rw [hparse] at h
  dsimp only at h
  have hout : out = buildFinalResults ms idxs topK := by
    cases h
    rfl
  subst hout
  refine ⟨?_, rfl, ?_⟩
  · calc (buildFinalResults ms idxs topK).length
        ≤ (idxs.take topK).length := List.length_filterMap_le _ _
      _ ≤ topK := by simp [List.length_take]
  · intro res hres
    rcases List.mem_filterMap.mp hres with ⟨j, hj, hstep⟩
    have hjidxs : j ∈ idxs := List.mem_of_mem_take hj
    cases j with
    | junk => simp [rerankStep] at hstep
    | int n =>
      simp only [rerankStep] at hstep
      by_cases hcond : n < 0 ∨ (ms.length : Int) ≤ n
      · rw [if_pos hcond] at hstep
        exact absurd hstep (by simp)
      · rw [if_neg hcond] at hstep
        push_neg at hcond
        obtain ⟨h0, hlen⟩ := hcond
        cases hget : ms.get? n.toNat with
        | none =>
          rw [hget] at hstep
          simp at hstep
        | some m =>
          rw [hget] at hstep
          dsimp only at hstep
          cases hatt : m.attendee with
          | none =>
            rw [hatt] at hstep
            simp at hstep
          | some a =>
            rw [hatt] at hstep
            dsimp only at hstep
            have hres' : res = mkRerankResult m a := by
              cases hstep
              rfl
            refine ⟨n.toNat, Or.inl ?_, ?_, m, a, hget, hatt, hres'⟩
            · have : (n.toNat : Int) = n := Int.toNat_of_nonneg h0
              rwa [this]
            · have hcast : (n.toNat : Int) < (ms.length : Int) := by
                rwa [Int.toNat_of_nonneg h0]
              exact_mod_cast hcast
    | str s =>
      simp only [rerankStep] at hstep
      cases hsi : strToIndex s with
      | none =>
        rw [hsi] at hstep
        simp at hstep
      | some k =>
        rw [hsi] at hstep
        dsimp only at hstep
        by_cases hb : ms.length ≤ k
        · rw [if_pos hb] at hstep
          exact absurd hstep (by simp)
        · rw [if_neg hb] at hstep
          cases hget : ms.get? k with
          | none =>
            rw [hget] at hstep
            simp at hstep
          | some m =>
            rw [hget] at hstep
            dsimp only at hstep
            cases hatt : m.attendee with
            | none =>
              rw [hatt] at hstep
              simp at hstep
            | some a =>
              rw [hatt] at hstep
              dsimp only at hstep
              have hres' : res = mkRerankResult m a := by
                cases hstep
                rfl
              exact ⟨k, Or.inr ⟨s, hjidxs, hsi⟩, Nat.lt_of_not_le hb, m, a, hget, hatt, hres'⟩

/-- Witness for the amended C1 at a concrete parsed response. -/
theorem rerank_validation_c1_witness :
    parseRerankReply (cleanMarkdownFence (jsTrim "[0]")) =
        some (RerankReply.arr [JsonIdx.int 0]) ∧
      rerankFromText msW "[0]" 25 = Except.ok outW ∧
      (outW.length ≤ 25 ∧ outW = buildFinalResults msW [JsonIdx.int 0] 25 ∧
        ∀ res ∈ outW, ∃ k : Nat,
          (JsonIdx.int (k : Int) ∈ [JsonIdx.int 0] ∨
            ∃ s, JsonIdx.str s ∈ [JsonIdx.int 0] ∧ strToIndex s = some k) ∧
          k < msW.length ∧ ∃ m a, msW.get? k = some m ∧ m.attendee = some a ∧
            res = mkRerankResult m a) :=
  ⟨by decide, by decide,
    rerank_validation_c1 msW "[0]" 25 outW [JsonIdx.int 0] (by decide) (by decide)⟩

/-! ### C10: rerank does not deduplicate indices -/

theorem count_le_filterMap_count (ms : List MatchInput) (k : Nat) (m : MatchInput)
    (a : AttendeeRow) (hget : ms.get? k = some m) (hatt : m.attendee = some a) :
    ∀ L : List JsonIdx,
      List.count (JsonIdx.int (k : Int)) L ≤
        List.count (mkRerankResult m a) (L.filterMap (rerankStep ms)) := by
  have hk : k < ms.length := by
    by_contra hk'
    push_neg at hk'
    rw [List.get?_eq_none.mpr hk'] at hget
    simp at hget
  have hstep : rerankStep ms (JsonIdx.int (k : Int)) = some (mkRerankResult m a) := by
    simp only [rerankStep]
    rw [if_neg (show ¬((k : Int) < 0 ∨ (ms.length : Int) ≤ (k : Int)) by omega)]
    have htn : ((k : Int)).toNat = k := rfl
    rw [htn, hget]
    dsimp only
    rw [hatt]
  intro L
  induction L with
  | nil => simp
  | cons j t ih =>
    rw [List.filterMap_cons]
    by_cases hj : j = JsonIdx.int (k : Int)
    · subst hj
      rw [hstep]
      simp only [List.count_cons_self]
      omega
    · cases hstep' : rerankStep ms j with
      | none =>
        rw [List.count_cons_of_ne (fun heq => hj heq.symm)]
        exact ih
      | some b =>
        rw [List.count_cons_of_ne (fun heq => hj heq.symm)]
        calc List.count (JsonIdx.int (k : Int)) t
            ≤ List.count (mkRerankResult m a) (t.filterMap (rerankStep ms)) := ih
          _ ≤ List.count (mkRerankResult m a) (b :: t.filterMap (rerankStep ms)) := by
              simp [List.count_cons]

/-- C10.  `rerankMatches` does not deduplicate indices: every occurrence
of a valid in-bounds index `k` within the first `topK` parsed entries
contributes one occurrence of the record built from `ms[k]` to the
output, so the output can contain the same candidate several times. -/
theorem rerank_no_dedup_c10 (ms : List MatchInput) (idxs : List JsonIdx) (topK k : Nat)
    (m : MatchInput) (a : AttendeeRow) (hget : ms.get? k = some m)
    (hatt : m.attendee = some a) :
    List.count (JsonIdx.int (k : Int)) (idxs.take topK) ≤
      List.count (mkRerankResult m a) (buildFinalResults ms idxs topK) := by
  unfold buildFinalResults
  exact count_le_filterMap_count ms k m a hget hatt (idxs.take topK)

/-- Witness for C10: the index 0 repeated twice yields the same
candidate twice. -/
theorem rerank_no_dedup_c10_witness :
    msW.get? 0 = some mInputW ∧ mInputW.attendee = some bobRowW ∧
      List.count (JsonIdx.int ((0 : Nat) : Int))
          ([JsonIdx.int ((0 : Nat) : Int), JsonIdx.int ((0 : Nat) : Int)].take 25) ≤
        List.count (mkRerankResult mInputW bobRowW)
          (buildFinalResults msW [JsonIdx.int ((0 : Nat) : Int), JsonIdx.int ((0 : Nat) : Int)] 25) :=
  ⟨rfl, rfl,
    rerank_no_dedup_c10 msW [JsonIdx.int ((0 : Nat) : Int), JsonIdx.int ((0 : Nat) : Int)] 25 0
      mInputW bobRowW rfl rfl⟩

/-! ### C5: three-tier identity resolution -/

/-- Attendee row used by the C5 counterexample. -/
def johnRowW : AttendeeRow :=
  { id := 3, first_name := some "John", last_name := some "Smith", company := none,
    job_title := none, country := none, linkedin := none, swapcard := none, biography := none }

/-- Attendee row used by the C5 counterexample. -/
def maryRowW : AttendeeRow :=
  { id := 4, first_name := some "Mary", last_name := some "Smith", company := none,
    job_title := none, country := none, linkedin := none, swapcard := none, biography := none }

/-- Counterexample to C5 as stated: the queries interpolate the raw
name into `ILIKE` patterns, so `_` acts as a wildcard.  Searching
`"Jo_n Smith"` resolves John Smith in the code's tier (i), whereas
under the claim's exact-equality / substring semantics
(`resolveClaimed`) tier (i) and (ii) fail and tier (iii) picks the
first `%Smith%` row, Mary Smith — a different attendee. -/
theorem name_resolution_c5_cex :
    resolveAttendee "Jo_n Smith" [maryRowW, johnRowW] = some johnRowW ∧
      resolveClaimed "Jo_n Smith" [maryRowW, johnRowW] = some maryRowW ∧
      johnRowW ≠ maryRowW := by decide

/-- C5 (amended).  Identity resolution runs exactly three tiers in
order, each a case-insensitive SQL `ILIKE` match in which `_` and `%`
(and PostgREST's `*` alias) inside the user-supplied name act as
wildcards: (i) for names with at least two tokens, the first token as a
pattern against `first_name` and the joined remaining tokens against
`last_name`; (ii) if that yielded zero rows, the whole raw input
`%`-wrapped against either name field; (iii) if still zero rows and at
least two tokens, the `%`-wrapped first and last tokens independently.
Each tier runs only when the previous yielded zero rows; the first row
of the first succeeding tier is the resolved attendee, and `none` (the
404 path) results exactly when all tiers are empty.  The handler's
sequential cascade (`resolveAttendee`, the literal translation of the
`limit(1)` / `limit(5)` / `attendees[0]` plumbing) is proved equal to
that clean description (`resolveSpec`). -/
theorem name_resolution_c5 (name : String) (atts : List AttendeeRow) :
    resolveAttendee name atts = resolveSpec name atts := by
  unfold resolveAttendee resolveSpec afterTier3 afterTier2 afterTier1
  cases hb : manyTokens (parseNameParts name) with
  | false =>
    cases h2 : tier2Filter name atts with
    | nil => simp [hb, h2, Option.orElse]
    | cons a t => simp [hb, h2, Option.orElse]
  | true =>
    cases h1 : tier1Filter (parseNameParts name) atts with
    | cons a t => simp [hb, h1, Option.orElse]
    | nil =>
      cases h2 : tier2Filter name atts with
      | cons a t => simp [hb, h1, h2, Option.orElse]
      | nil =>
        cases h3 : tier3Filter (parseNameParts name) atts with
        | nil => simp [hb, h1, h2, h3, Option.orElse]
        | cons a t => simp [hb, h1, h2, h3, Option.orElse]

/-! ### C8: embedding normalisation -/

theorem sumSq_nonneg (v : List ℝ) : 0 ≤ sumSq v := by
  unfold sumSq
  apply List.sum_nonneg
  intro x hx
  rcases List.mem_map.mp hx with ⟨y, _, rfl⟩
  exact mul_self_nonneg y

theorem sumSq_map_div (v : List ℝ) (s : ℝ) :
    sumSq (v.map fun x => x / s) = sumSq v / (s * s) := by
  induction v with
  | nil => simp [sumSq]
  | cons a t ih =>
    simp only [List.map_cons, sumSq, List.sum_cons] at ih ⊢
    rw [ih]
    rw [div_mul_div_comm, div_add_div_same]

/-- Counterexample to C8 as stated: a successful `generateEmbedding`
call on the nonempty all-zero raw vector returns a vector whose L2 norm
is `0`, not `1` (in JS the division `0/0` yields `NaN`, whose norm is
likewise not `1`). -/
theorem embedding_unit_norm_c8_cex :
    generateEmbedding [(0 : ℝ)] = Except.ok [(0 : ℝ)] ∧ l2norm [(0 : ℝ)] ≠ 1 := by
  constructor
  · unfold generateEmbedding
    rw [if_neg (by simp)]
    unfold l2normalize
    simp
  · unfold l2norm sumSq
    simp

/-- C8 (amended).  Every successful `generateEmbedding` call returns the
raw upstream vector divided componentwise by its L2 norm, and whenever
the raw vector is not the zero vector (equivalently, its sum of squares
is nonzero) the returned vector has L2 norm exactly `1`. -/
theorem embedding_unit_norm_c8 (raw v : List ℝ) (h : generateEmbedding raw = Except.ok v)
    (hz : sumSq raw ≠ 0) : v = l2normalize raw ∧ l2norm v = 1 := by
  unfold generateEmbedding at h
  by_cases he : raw.isEmpty
  · rw [if_pos he] at h
    exact absurd h (by simp)
  · rw [if_neg he] at h
    have hv : v = l2normalize raw := by
      cases h
      rfl
    subst hv
    refine ⟨rfl, ?_⟩
    have hnn : 0 ≤ sumSq raw := sumSq_nonneg raw
    unfold l2norm l2normalize
    rw [sumSq_map_div]
    unfold l2norm
    rw [Real.mul_self_sqrt hnn]
    rw [div_self hz]
    exact Real.sqrt_one

/-- Witness for the amended C8 at the raw vector `[3, 4]`. -/
theorem embedding_unit_norm_c8_witness :
    generateEmbedding [(3 : ℝ), 4] = Except.ok (l2normalize [(3 : ℝ), 4]) ∧
      sumSq [(3 : ℝ), 4] ≠ 0 ∧
      (l2normalize [(3 : ℝ), 4] = l2normalize [(3 : ℝ), 4] ∧
        l2norm (l2normalize [(3 : ℝ), 4]) = 1) :=
  ⟨rfl, by unfold sumSq; simp; norm_num,
    embedding_unit_norm_c8 [(3 : ℝ), 4] (l2normalize [(3 : ℝ), 4]) rfl
      (by unfold sumSq; simp; norm_num)⟩

/-! ### C9: markdown fence stripping -/

theorem splitTicksAux_cons_ne (c : Char) (t : List Char) (acc : List Char)
    (hc : ¬(c = tickChar)) : splitTicksAux (c :: t) acc = splitTicksAux t (c :: acc) := by
  cases t with
  | nil => simp [splitTicksAux]
  | cons d t2 =>
    cases t2 with
    | nil => simp [splitTicksAux]
    | cons e t3 => simp [splitTicksAux, hc]

theorem splitTicks_clean (mid : List Char) (h : tickChar ∉ mid) :
    ∀ acc, splitTicksAux (mid ++ [tickChar, tickChar, tickChar]) acc =
      (acc.reverse ++ mid) :: [[]] := by
  induction mid with
  | nil =>
    intro acc
    simp [splitTicksAux]
  | cons c rest ih =>
    intro acc
    have hc : ¬(c = tickChar) := fun hh => h (by simp [hh])
    have hr : tickChar ∉ rest := fun hh => h (List.mem_cons_of_mem _ hh)
    rw [List.cons_append, splitTicksAux_cons_ne c _ _ hc, ih hr (c :: acc)]
    simp

theorem cleanMarkdownFence_fenced (inner : String) (h : tickChar ∉ inner.data) :
    cleanMarkdownFence ("```json" ++ inner ++ "```") = jsTrim inner := by
  have h7 : ("```json" : String).data = [tickChar, tickChar, tickChar, 'j', 's', 'o', 'n'] := rfl
  have h3 : ("```" : String).data = [tickChar, tickChar, tickChar] := rfl
  have hdata : ("```json" ++ inner ++ "```").data =
      tickChar :: tickChar :: tickChar ::
        (('j' :: 's' :: 'o' :: 'n' :: inner.data) ++ [tickChar, tickChar, tickChar]) := by
    rw [String.data_append, String.data_append, h7, h3]
    simp
  have hmid : tickChar ∉ ('j' :: 's' :: 'o' :: 'n' :: inner.data) := by
    intro hmem
    rcases List.mem_cons.mp hmem with h1 | hmem
    · exact absurd h1.symm (by decide)
    rcases List.mem_cons.mp hmem with h1 | hmem
    · exact absurd h1.symm (by decide)
    rcases List.mem_cons.mp hmem with h1 | hmem
    · exact absurd h1.symm (by decide)
    rcases List.mem_cons.mp hmem with h1 | hmem
    · exact absurd h1.symm (by decide)
    exact h hmem
  unfold cleanMarkdownFence startsWithTicks
  rw [hdata]
  rw [if_pos (by simp [List.isPrefixOf])]
  have hsplit : splitTicksAux
      (tickChar :: tickChar :: tickChar ::
        (('j' :: 's' :: 'o' :: 'n' :: inner.data) ++ [tickChar, tickChar, tickChar])) [] =
      [] :: (('j' :: 's' :: 'o' :: 'n' :: inner.data) :: [[]]) := by
    rw [show splitTicksAux
        (tickChar :: tickChar :: tickChar ::
          (('j' :: 's' :: 'o' :: 'n' :: inner.data) ++ [tickChar, tickChar, tickChar])) [] =
        [].reverse :: splitTicksAux
          (('j' :: 's' :: 'o' :: 'n' :: inner.data) ++ [tickChar, tickChar, tickChar]) [] from by
      simp [splitTicksAux]]
    rw [splitTicks_clean _ hmid []]
    simp
  rw [hsplit]
  simp [List.isPrefixOf]
  rfl

/-- C9.  If the trimmed upstream response text is a markdown-fenced
block, `rerankMatches` strips the fence before JSON parsing: the text
between the first pair of triple-backtick delimiters is taken, a leading
`json` tag dropped, and the remainder trimmed — so a fenced JSON index
array, which the parser rejects raw, parses successfully after
cleaning. -/
theorem fence_stripping_c9 :
    (∀ inner : String, tickChar ∉ inner.data →
        cleanMarkdownFence ("```json" ++ inner ++ "```") = jsTrim inner) ∧
      parseIdxArray "```json\n[1, 0]\n```" = none ∧
      cleanMarkdownFence (jsTrim "```json\n[1, 0]\n```") = "[1, 0]" ∧
      parseIdxArray (cleanMarkdownFence (jsTrim "```json\n[1, 0]\n```")) =
        some [JsonIdx.int 1, JsonIdx.int 0] :=
  ⟨fun inner h => cleanMarkdownFence_fenced inner h, by decide, by decide, by decide⟩

/-- Witness for C9's general conjunct at a concrete fenced body. -/
theorem fence_stripping_c9_witness :
    tickChar ∉ ("[1, 0]" : String).data ∧
      cleanMarkdownFence ("```json" ++ "[1, 0]" ++ "```") = jsTrim "[1, 0]" :=
  ⟨by decide, fence_stripping_c9.1 "[1, 0]" (by decide)⟩

/-! ### C7: empty candidate set short-circuits -/

/-- C7.  In both free-text modes, when the vector search returns zero
candidates the handler returns `{query, matches: []}` immediately, and
the reranking service is not invoked at all: the result is the same for
every possible rerank oracle `llm'`. -/
theorem empty_candidates_c7 (cosDist : List Score → List Score → Score) (db : SearchDB)
    (o : Oracles) (request offering syn : String) (qe qe2 : List Score) :
    (request ≠ "" → o.synth request = Except.ok syn → o.embed syn = Except.ok qe →
      match_offerings cosDist db.offerings qe Score.half 50 none = [] →
      ∀ llm', searchByRequest cosDist db { o with llm := llm' } (some request) =
        HandlerOut.ok { query := request, matchList := [] }) ∧
    (offering ≠ "" → o.embed offering = Except.ok qe2 →
      match_requests cosDist db.requests qe2 Score.half 50 none = [] →
      ∀ llm', searchByOffering cosDist db { o with llm := llm' } (some offering) =
        HandlerOut.ok { query := offering, matchList := [] }) := by
  obtain ⟨osynth, oembed, ollm⟩ := o
  constructor
  · intro hreq hsyn hemb hmatch llm'
    dsimp only at hsyn hemb
    unfold searchByRequest
    dsimp only
    rw [if_neg hreq, hsyn]
    dsimp only
    rw [hemb]
    dsimp only
    rw [hmatch]
    simp
  · intro hoff hemb hmatch llm'
    dsimp only at hemb
    unfold searchByOffering
    dsimp only
    rw [if_neg hoff, hemb]
    dsimp only
    rw [hmatch]
    simp

/-- Empty database used by the C7 witness. -/
def emptyDbW : SearchDB := { attendees := [], offerings := [], requests := [] }

/-- Benign oracle set shared by witnesses. -/
def okOracleW : Oracles :=
  { synth := fun _ => Except.ok "s", embed := fun _ => Except.ok [],
    llm := fun _ _ => Except.ok "[]" }

/-- Witness for C7: with empty tables, both modes return empty matches
even under an oracle whose rerank call would fail. -/
theorem empty_candidates_c7_witness :
    searchByRequest zeroDistW emptyDbW
        { okOracleW with llm := fun _ _ => Except.error "boom" } (some "q") =
      HandlerOut.ok { query := "q", matchList := [] } ∧
    searchByOffering zeroDistW emptyDbW
        { okOracleW with llm := fun _ _ => Except.error "boom" } (some "f") =
      HandlerOut.ok { query := "f", matchList := [] } :=
  ⟨(empty_candidates_c7 zeroDistW emptyDbW okOracleW "q" "f" "s" [] []).1 (by decide) rfl rfl
      (by decide) (fun _ _ => Except.error "boom"),
    (empty_candidates_c7 zeroDistW emptyDbW okOracleW "q" "f" "s" [] []).2 (by decide) rfl
      (by decide) (fun _ _ => Except.error "boom")⟩

/-! ### C2: rerank parse failure does not fall back -/

/-- Oracle whose rerank reply is not JSON at all. -/
def badLlmO : Oracles :=
  { synth := fun _ => Except.ok "s", embed := fun _ => Except.ok [],
    llm := fun _ _ => Except.ok "no json" }

/-- Counterexample to C2 as stated: with a nonempty candidate set and an
unparseable rerank reply, the `search-by-request` entry point does not
fall back to the similarity-ordered top-`topK` candidates — it fails the
request with a 500 error response. -/
theorem rerank_fallback_c2_cex :
    searchByRequest zeroDistW dbW badLlmO (some "q") =
      HandlerOut.err 500 "Rerank response is not a JSON array" := by decide

/-- C2 (amended).  When the upstream rerank response (after fence
cleaning) is not valid JSON, or parses to a JSON value that is neither
an array nor a string — the cases where `JSON.parse` or the subsequent
`.slice` call throws — the rerank operation fails with a rerank error,
and every online entry point surfaces it as a 500 `{error}` response
rather than falling back to similarity order: `search-by-request`,
`search-by-offering`, and `search-by-username`, whose request and
offering loops propagate the error to the handler's catch-all.  (A
response parsing to a top-level JSON string does not throw: the call
returns normally over the string's characters, as the second conjunct
records.) -/
theorem rerank_error_propagation_c2 (cosDist : List Score → List Score → Score) (db : SearchDB)
    (o : Oracles) (t : String)
    (hparse : parseRerankReply (cleanMarkdownFence (jsTrim t)) = none) :
    (∀ ms topK, rerankFromText ms t topK =
        Except.error "Rerank response is not a JSON array") ∧
    (∀ u s ms topK,
      parseRerankReply (cleanMarkdownFence (jsTrim u)) = some (RerankReply.strv s) →
      rerankFromText ms u topK =
        Except.ok (buildFinalResults ms (s.data.map fun c => JsonIdx.str (String.mk [c]))
          topK)) ∧
    (∀ request syn qe, request ≠ "" → o.synth request = Except.ok syn →
      o.embed syn = Except.ok qe →
      (match_offerings cosDist db.offerings qe Score.half 50 none).isEmpty = false →
      o.llm request (attachAttendees db (match_offerings cosDist db.offerings qe Score.half 50
        none)) = Except.ok t →
      searchByRequest cosDist db o (some request) =
        HandlerOut.err 500 "Rerank response is not a JSON array") ∧
    (∀ offering qe, offering ≠ "" → o.embed offering = Except.ok qe →
      (match_requests cosDist db.requests qe Score.half 50 none).isEmpty = false →
      o.llm offering (attachAttendees db (match_requests cosDist db.requests qe Score.half 50
        none)) = Except.ok t →
      searchByOffering cosDist db o (some offering) =
        HandlerOut.err 500 "Rerank response is not a JSON array") ∧
    (∀ selfId r rest syn qe, o.synth r = Except.ok syn → o.embed syn = Except.ok qe →
      (usernameOfferingCandidates cosDist db selfId qe).isEmpty = false →
      (attachAttendees db (usernameOfferingCandidates cosDist db selfId qe)).isEmpty = false →
      o.llm r (attachAttendees db (usernameOfferingCandidates cosDist db selfId qe)) =
        Except.ok t →
      runRequestLoop cosDist db o selfId (r :: rest) =
        Except.error "Rerank response is not a JSON array") ∧
    (∀ selfId offer rest qe, o.embed offer = Except.ok qe →
      (usernameRequestCandidates cosDist db selfId qe).isEmpty = false →
      (attachAttendees db (usernameRequestCandidates cosDist db selfId qe)).isEmpty = false →
      o.llm offer (attachAttendees db (usernameRequestCandidates cosDist db selfId qe)) =
        Except.ok t →
      runOfferingLoop cosDist db o selfId (offer :: rest) =
        Except.error "Rerank response is not a JSON array") ∧
    (∀ name a r rest syn qe, name ≠ "" →
      resolveAttendee name db.attendees = some a →
      (db.requests.filter fun it => it.attendee_id == a.id).map (fun it => it.text) = r :: rest →
      o.synth r = Except.ok syn → o.embed syn = Except.ok qe →
      (usernameOfferingCandidates cosDist db a.id qe).isEmpty = false →
      (attachAttendees db (usernameOfferingCandidates cosDist db a.id qe)).isEmpty = false →
      o.llm r (attachAttendees db (usernameOfferingCandidates cosDist db a.id qe)) =
        Except.ok t →
      searchByUsername cosDist db o (some name) =
        HandlerOut.err 500 "Rerank response is not a JSON array") := by
  have hfail : ∀ ms topK, rerankFromText ms t topK =
      Except.error "Rerank response is not a JSON array" := by
    intro ms topK
    unfold rerankFromText
    rw [hparse]
  have hstrv : ∀ u s ms topK,
      parseRerankReply (cleanMarkdownFence (jsTrim u)) = some (RerankReply.strv s) →
      rerankFromText ms u topK =
        Except.ok (buildFinalResults ms (s.data.map fun c => JsonIdx.str (String.mk [c]))
          topK) := by
    intro u s ms topK hu
    unfold rerankFromText
    rw [hu]
  have hloopReq : ∀ selfId r rest syn qe, o.synth r = Except.ok syn →
      o.embed syn = Except.ok qe →
      (usernameOfferingCandidates cosDist db selfId qe).isEmpty = false →
      (attachAttendees db (usernameOfferingCandidates cosDist db selfId qe)).isEmpty = false →
      o.llm r (attachAttendees db (usernameOfferingCandidates cosDist db selfId qe)) =
        Except.ok t →
      runRequestLoop cosDist db o selfId (r :: rest) =
        Except.error "Rerank response is not a JSON array" := by
    intro selfId r rest syn qe hsyn hemb hne hvalid hllm
    conv_lhs => unfold runRequestLoop
    rw [hsyn]
    dsimp only
    rw [hemb]
    dsimp only
    simp only [hne, Bool.false_eq_true, if_false]
    simp only [hvalid, Bool.false_eq_true, if_false]
    rw [hllm]
    dsimp only
    rw [hfail]
  refine ⟨hfail, hstrv, ?_, ?_, hloopReq, ?_, ?_⟩
  · intro request syn qe hreq hsyn hemb hne hllm
    unfold searchByRequest
    dsimp only
    rw [if_neg hreq, hsyn]
    dsimp only
    rw [hemb]
    dsimp only
    simp only [hne, Bool.false_eq_true, if_false]
    rw [hllm]
    dsimp only
    rw [hfail]
  · intro offering qe hoff hemb hne hllm
    unfold searchByOffering
    dsimp only
    rw [if_neg hoff, hemb]
    dsimp only
    simp only [hne, Bool.false_eq_true, if_false]
    rw [hllm]
    dsimp only
    rw [hfail]
  · intro selfId offer rest qe hemb hne hvalid hllm
    conv_lhs => unfold runOfferingLoop
    rw [hemb]
    dsimp only
    simp only [hne, Bool.false_eq_true, if_false]
    simp only [hvalid, Bool.false_eq_true, if_false]
    rw [hllm]
    dsimp only
    rw [hfail]
  · intro name a r rest syn qe hname hres hreqs hsyn hemb hne hvalid hllm
    unfold searchByUsername
    dsimp only
    rw [if_neg hname, hres]
    dsimp only
    rw [hreqs, hloopReq a.id r rest syn qe hsyn hemb hne hvalid hllm]
  
/-- Witness for the amended C2: a concrete non-JSON reply makes the
identity-mode entry point return a 500 error response. -/
theorem rerank_error_propagation_c2_witness :
    parseRerankReply (cleanMarkdownFence (jsTrim "no json")) = none ∧
      searchByUsername zeroDistW dbW badLlmO (some "Alice Smith") =
        HandlerOut.err 500 "Rerank response is not a JSON array" :=
  ⟨by decide,
    (rerank_error_propagation_c2 zeroDistW dbW badLlmO "no json"
        (by decide)).2.2.2.2.2.2 "Alice Smith" aliceRowW "r" [] "s" [] (by decide) (by decide)
      (by decide) rfl rfl (by decide) (by decide) rfl⟩

/-! ### C3: zero-match groups are not always omitted -/

/-- Oracle whose rerank reply is the empty JSON array. -/
def emptyLlmO : Oracles :=
  { synth := fun _ => Except.ok "s", embed := fun _ => Except.ok [],
    llm := fun _ _ => Except.ok "[]" }

/-- Counterexample to C3 as stated: with one raw candidate surviving
attendee resolution and a reranker that returns `[]`, the identity-mode
result contains a `people_who_can_help_you` group whose match list is
empty. -/
theorem group_omission_c3_cex :
    searchByUsername zeroDistW dbW emptyLlmO (some "Alice Smith") =
      HandlerOut.ok
        { attendee := { name := "Alice Smith", company := none, job_title := none, country := none }
          people_who_can_help_you := [{ your_text := "r", matchList := [] }]
          people_you_can_help := [] } := by decide

/-- C3 (amended).  In both identity-mode loops the group-omission guard
runs before reranking: a request (or offering) contributes a group
exactly when its vector search returns at least one candidate and at
least one candidate survives attendee resolution — when that guard
fails the item is skipped and no group is appended (conjuncts three and
four); when it holds and the reranker replies with a JSON array, a
group is appended whose match list is the reranker's validated output
and may be empty (conjuncts one and two). -/
theorem group_omission_c3 (cosDist : List Score → List Score → Score) (db : SearchDB)
    (o : Oracles) (selfId : Int) (rest : List String) :
    (∀ r syn qe t idxs, o.synth r = Except.ok syn → o.embed syn = Except.ok qe →
      (usernameOfferingCandidates cosDist db selfId qe).isEmpty = false →
      (attachAttendees db (usernameOfferingCandidates cosDist db selfId qe)).isEmpty = false →
      o.llm r (attachAttendees db (usernameOfferingCandidates cosDist db selfId qe)) =
        Except.ok t →
      parseRerankReply (cleanMarkdownFence (jsTrim t)) = some (RerankReply.arr idxs) →
      runRequestLoop cosDist db o selfId (r :: rest) =
        Except.map
          (fun gs =>
            { your_text := r
              matchList := buildFinalResults
                (attachAttendees db (usernameOfferingCandidates cosDist db selfId qe)) idxs
                25 } :: gs)
          (runRequestLoop cosDist db o selfId rest)) ∧
    (∀ offer qe t idxs, o.embed offer = Except.ok qe →
      (usernameRequestCandidates cosDist db selfId qe).isEmpty = false →
      (attachAttendees db (usernameRequestCandidates cosDist db selfId qe)).isEmpty = false →
      o.llm offer (attachAttendees db (usernameRequestCandidates cosDist db selfId qe)) =
        Except.ok t →
      parseRerankReply (cleanMarkdownFence (jsTrim t)) = some (RerankReply.arr idxs) →
      runOfferingLoop cosDist db o selfId (offer :: rest) =
        Except.map
          (fun gs =>
            { your_text := offer
              matchList := buildFinalResults
                (attachAttendees db (usernameRequestCandidates cosDist db selfId qe)) idxs
                25 } :: gs)
          (runOfferingLoop cosDist db o selfId rest)) ∧
    (∀ r syn qe, o.synth r = Except.ok syn → o.embed syn = Except.ok qe →
      ((usernameOfferingCandidates cosDist db selfId qe).isEmpty = true ∨
        (attachAttendees db (usernameOfferingCandidates cosDist db selfId qe)).isEmpty = true) →
      runRequestLoop cosDist db o selfId (r :: rest) =
        runRequestLoop cosDist db o selfId rest) ∧
    (∀ offer qe, o.embed offer = Except.ok qe →
      ((usernameRequestCandidates cosDist db selfId qe).isEmpty = true ∨
        (attachAttendees db (usernameRequestCandidates cosDist db selfId qe)).isEmpty = true) →
      runOfferingLoop cosDist db o selfId (offer :: rest) =
        runOfferingLoop cosDist db o selfId rest) := by
  refine ⟨?_, ?_, ?_, ?_⟩
  · intro r syn qe t idxs hsyn hemb hne hvalid hllm hparse
    conv_lhs => unfold runRequestLoop
    rw [hsyn]
    dsimp only
    rw [hemb]
    dsimp only
    simp only [hne, Bool.false_eq_true, if_false]
    simp only [hvalid, Bool.false_eq_true, if_false]
    rw [hllm]
    dsimp only
    unfold rerankFromText
    rw [hparse]
  · intro offer qe t idxs hemb hne hvalid hllm hparse
    conv_lhs => unfold runOfferingLoop
    rw [hemb]
    dsimp only
    simp only [hne, Bool.false_eq_true, if_false]
    simp only [hvalid, Bool.false_eq_true, if_false]
    rw [hllm]
    dsimp only
    unfold rerankFromText
    rw [hparse]
  · intro r syn qe hsyn hemb hdrop
    conv_lhs => unfold runRequestLoop
    rw [hsyn]
    dsimp only
    rw [hemb]
    dsimp only
    rcases hdrop with hcand | hvalid
    · simp [hcand]
    · cases hcand2 : (usernameOfferingCandidates cosDist db selfId qe).isEmpty
      · simp [hcand2, hvalid]
      · simp [hcand2]
  · intro offer qe hemb hdrop
    conv_lhs => unfold runOfferingLoop
    rw [hemb]
    dsimp only
    rcases hdrop with hcand | hvalid
    · simp [hcand]
    · cases hcand2 : (usernameRequestCandidates cosDist db selfId qe).isEmpty
      · simp [hcand2, hvalid]
      · simp [hcand2]

/-- Witness for the amended C3: a reranker reply of `[]` appends a group
with an empty match list. -/
theorem group_omission_c3_witness :
    parseRerankReply (cleanMarkdownFence (jsTrim "[]")) = some (RerankReply.arr []) ∧
      runRequestLoop zeroDistW dbW emptyLlmO 1 ["r"] =
        Except.map
          (fun gs =>
            { your_text := "r"
              matchList := buildFinalResults
                (attachAttendees dbW (usernameOfferingCandidates zeroDistW dbW 1 [])) [] 25 } :: gs)
          (runRequestLoop zeroDistW dbW emptyLlmO 1 []) :=
  ⟨by decide,
    (group_omission_c3 zeroDistW dbW emptyLlmO 1 []).1 "r" "s" [] "[]" [] rfl rfl (by decide)
      (by decide) rfl (by decide)⟩
